import Mathlib

/-!
# Verification of `autoflags` (github.com/artyom/autoflags)

Shallow embedding of `src/autoflags.go` (`Define`, `DefineFlagSet`) and of the
external collaborators it delegates to (Go's `flag` registry and the textual
value parsers it uses), together with proofs of the specification claims.

The repository's own code is embedded directly from `src/autoflags.go`,
including the `reflect` panic that `val.Interface()` / `addr.Interface()`
raise when the loop reaches a tagged unexported struct field.
The `flag` package and the `strconv`/`time` parsers are not part of this
repository; the parts of their behaviour that the claims need are modelled
from the specification (each such definition carries a doc comment starting
with `Modelled from the spec:`).
-/

namespace Autoflags

/-- Runtime type of a struct field, as seen by `reflect` in `DefineFlagSet`.
The eight built-in kinds are the exact dynamic types matched by the
`switch d := val.Interface().(type)` in `src/autoflags.go`; a `defined` type
(e.g. `type MyInt int`) is a distinct dynamic type and matches none of the
cases; `rawPointer` stands for `unsafe.Pointer`; `other` stands for any other
unsupported type. -/
inductive GoType where
  | int
  | int64
  | uint
  | uint64
  | float64
  | bool
  | string
  | duration
  | defined (name : String) (underlying : GoType)
  | rawPointer
  | other (name : String)
deriving DecidableEq

/-- Runtime value stored in a struct field. Go machine integers are modelled
as unbounded `Int`/`Nat` (the textual parsers enforce the 64-bit ranges, as
`strconv` does); `float64` values are modelled as exact rationals;
`duration` is a signed count of nanoseconds; `vcustom` is the state of a
`flag.Value` implementation, modelled by the last text it was set from. -/
inductive GoValue where
  | vint (i : Int)
  | vint64 (i : Int)
  | vuint (n : Nat)
  | vuint64 (n : Nat)
  | vfloat64 (q : Rat)
  | vbool (b : Bool)
  | vstring (s : String)
  | vduration (ns : Int)
  | vcustom (s : String)
  | vother
deriving DecidableEq

/-- One struct field as `DefineFlagSet`'s loop sees it: declared name;
whether the field is exported (in `reflect`, an unexported field's `Value`
carries the read-only flag — `StructField.PkgPath` is non-empty — which is
independent of addressability and makes `Interface()` panic); dynamic type;
current value; the `flag:"..."` tag (`reflect.StructTag.Get` returns `""`
when the tag is absent); whether `val.CanAddr()` holds (true also for
unexported fields reached through a pointer to the struct); and whether the
pointer type `*T` implements `flag.Value`. -/
structure GoField where
  fieldName : String
  exported : Bool
  typ : GoType
  value : GoValue
  tag : String
  canAddr : Bool
  implementsValue : Bool
deriving DecidableEq

/-- The `config interface{}` argument of `Define`/`DefineFlagSet`, classified
by the reflection checks the function performs: a non-pointer value, a nil
(typed) pointer, a pointer to a non-struct value, or a pointer to a struct
with the given fields in declaration order. -/
inductive GoArg where
  | nonPointer
  | nilPointer
  | ptrToNonStruct
  | ptrToStruct (fields : List GoField)

/-- Which `FlagSet` registration function was called for a flag:
`IntVar`, `Int64Var`, `UintVar`, `Uint64Var`, `Float64Var`, `BoolVar`,
`StringVar`, `DurationVar`, or the generic `Var`. -/
inductive FlagKind where
  | kint
  | kint64
  | kuint
  | kuint64
  | kfloat64
  | kbool
  | kstring
  | kduration
  | kvar
deriving DecidableEq

/-- One registration recorded in the flag registry: flag name, usage text,
which registration function was used, the index of the bound struct field
(standing for the field's address), and the seeded default value (`some` of
the field's current value for the eight built-in registrations, `none` for
the generic `Var` registration, which takes no default argument). -/
structure FlagSpec where
  name : String
  usage : String
  kind : FlagKind
  fieldIndex : Nat
  defValue : Option GoValue
deriving DecidableEq

/-- Errors returned by `DefineFlagSet`:
`ErrInvalidFlagSet`, `ErrPointerWanted`, `ErrInvalidArgument`. -/
inductive DefineError where
  | invalidFlagSet
  | pointerWanted
  | invalidArgument
deriving DecidableEq

/-- A Go runtime panic raised inside the per-field loop:
`reflect.Value.Interface` panics with "cannot return value obtained from
unexported field or method" when called on a `Value` derived from an
unexported struct field — at `addr.Interface()` (line 93) or
`val.Interface()` (line 96) of `src/autoflags.go`. -/
inductive GoPanic where
  | interfaceOfUnexported
deriving DecidableEq

/-- How a call to `DefineFlagSet` finishes: a normal return carrying the
function's `error` result, or a propagating runtime panic (in which case the
function never returns a value). -/
inductive DefineOutcome where
  | ret (err : Option DefineError)
  | panicked (p : GoPanic)
deriving DecidableEq

/-- Split a character list at the first occurrence of `sep`: returns the
prefix before `sep` and, when `sep` occurs, `some` of everything after it
(later separators included). Used to embed `strings.SplitN(tag, ",", 2)`
and the other first-occurrence splits. -/
def splitAtFirst (sep : Char) : List Char → List Char × Option (List Char)
  | [] => ([], none)
  | c :: cs =>
    if c = sep then ([], some cs)
    else
      match splitAtFirst sep cs with
      | (before, after) => (c :: before, after)

/-- The `flagData := strings.SplitN(tag, ",", 2)` step of `DefineFlagSet`
together with the following `switch len(flagData)`: the annotation is split
on the first comma into `name` and (when a comma is present) `usage`;
with no comma `usage` stays `""`. -/
def splitTag (tag : String) : String × String :=
  match splitAtFirst ',' tag.data with
  | (nameChars, none) => (⟨nameChars⟩, "")
  | (nameChars, some usageChars) => (⟨nameChars⟩, ⟨usageChars⟩)

/-- The body of `DefineFlagSet`'s per-field loop for field number `i` holding
`f`, acting on the registry state `fs`: skip when the field is not
addressable; skip when the tag is empty; otherwise split the tag and take
`addr := val.Addr()`. When `*T` implements `flag.Value`, the source calls
`fs.Var(addr.Interface().(flag.Value), ...)` — for an unexported field
`addr.Interface()` panics (line 93), otherwise the `Var` registration is
made. Else the source evaluates `switch d := val.Interface().(type)` — for
an unexported field `val.Interface()` panics (line 96), otherwise the switch
dispatches over the eight exact built-in types, each case calling the
matching `fs.XxxVar(addr, name, d, usage)` with `d` the field's current
value; any other type falls through the switch and registers nothing. -/
def processField (fs : List FlagSpec) (i : Nat) (f : GoField) :
    Except GoPanic (List FlagSpec) :=
  if !f.canAddr then .ok fs
  else if f.tag = "" then .ok fs
  else
    let nu := splitTag f.tag
    if f.implementsValue then
      if !f.exported then .error .interfaceOfUnexported
      else .ok (fs ++ [⟨nu.1, nu.2, .kvar, i, none⟩])
    else
      if !f.exported then .error .interfaceOfUnexported
      else
        match f.typ with
        | .int => .ok (fs ++ [⟨nu.1, nu.2, .kint, i, some f.value⟩])
        | .int64 => .ok (fs ++ [⟨nu.1, nu.2, .kint64, i, some f.value⟩])
        | .uint => .ok (fs ++ [⟨nu.1, nu.2, .kuint, i, some f.value⟩])
        | .uint64 => .ok (fs ++ [⟨nu.1, nu.2, .kuint64, i, some f.value⟩])
        | .float64 => .ok (fs ++ [⟨nu.1, nu.2, .kfloat64, i, some f.value⟩])
        | .bool => .ok (fs ++ [⟨nu.1, nu.2, .kbool, i, some f.value⟩])
        | .string => .ok (fs ++ [⟨nu.1, nu.2, .kstring, i, some f.value⟩])
        | .duration => .ok (fs ++ [⟨nu.1, nu.2, .kduration, i, some f.value⟩])
        | _ => .ok fs

/-- The `for i := 0; i < st.NumField(); i++` loop of `DefineFlagSet`,
threading the registry state through `processField` in declaration order.
A panic aborts the loop: registrations made by earlier fields remain in the
registry (Go mutates the `FlagSet` in place), later fields are never
processed. -/
def defineLoop (fs : List FlagSpec) (i : Nat) :
    List GoField → List FlagSpec × Option GoPanic
  | [] => (fs, none)
  | f :: rest =>
    match processField fs i f with
    | .ok fs2 => defineLoop fs2 (i + 1) rest
    | .error p => (fs, some p)

/-- `DefineFlagSet(fs, config)` from `src/autoflags.go`. The first component
is the registry state after the call (Go mutates `fs` in place; a `none`
registry stays `none`; on a panic the registrations made before the panic
remain), the second the outcome: a normal return with the `error` result, or
a propagating panic. Checks in source order: nil `FlagSet` first, then
non-pointer `config`, then the combined invalid-dereference / non-struct
check, then the field loop. -/
def DefineFlagSet (fs : Option (List FlagSpec)) (config : GoArg) :
    Option (List FlagSpec) × DefineOutcome :=
  match fs with
  | none => (none, .ret (some .invalidFlagSet))
  | some regs =>
    match config with
    | .nonPointer => (some regs, .ret (some .pointerWanted))
    | .nilPointer => (some regs, .ret (some .invalidArgument))
    | .ptrToNonStruct => (some regs, .ret (some .invalidArgument))
    | .ptrToStruct fields =>
      match defineLoop regs 0 fields with
      | (regs2, none) => (some regs2, .ret none)
      | (regs2, some p) => (some regs2, .panicked p)

/-- `Define(config)` from `src/autoflags.go`: delegates to `DefineFlagSet`
with `flag.CommandLine`, the implicit process-wide registry, which is never
nil; `commandLine` is its current state. -/
def Define (commandLine : List FlagSpec) (config : GoArg) :
    Option (List FlagSpec) × DefineOutcome :=
  DefineFlagSet (some commandLine) config

/-- The registrations `DefineFlagSet` produces for a struct, read off from a
call against an initially empty registry. -/
def registrations (fields : List GoField) : List FlagSpec :=
  ((DefineFlagSet (some []) (GoArg.ptrToStruct fields)).1).getD []

/-- The registrations the per-field loop body produces for field `i` holding
`f` when it does not panic: the empty list or a single registration. -/
def fieldRegs (i : Nat) (f : GoField) : List FlagSpec :=
  match processField [] i f with
  | .ok regs => regs
  | .error _ => []

/-- `true` exactly when the loop body panics on `f`: the field is
addressable, carries a non-empty tag, and is unexported, so the source
reaches `addr.Interface()` or `val.Interface()` on a read-only `Value`. -/
def panicField (f : GoField) : Bool :=
  f.canAddr && !(f.tag == "") && !f.exported

/-- The registrations produced by the whole loop started at field index `i`
when no field panics. -/
def defineRegs (i : Nat) : List GoField → List FlagSpec
  | [] => []
  | f :: rest => fieldRegs i f ++ defineRegs (i + 1) rest

/-- The flag name parsed from a field's annotation. -/
def tagName (f : GoField) : String :=
  (splitTag f.tag).1

/-- `true` exactly when the field's dynamic type is one of the eight types of
the built-in type switch. -/
def isBuiltin : GoType → Bool
  | .int => true
  | .int64 => true
  | .uint => true
  | .uint64 => true
  | .float64 => true
  | .bool => true
  | .string => true
  | .duration => true
  | _ => false

/-- A field the binder can register: its pointer type implements `flag.Value`
or its dynamic type is one of the eight built-ins. -/
def supportedField (f : GoField) : Bool :=
  f.implementsValue || isBuiltin f.typ

/-- The registrations bound to struct field index `i`. -/
def regsForIndex (i : Nat) (regs : List FlagSpec) : List FlagSpec :=
  regs.filter (fun sp => sp.fieldIndex = i)

/-- Errors the registry's argument parsing can produce: bad flag syntax,
a flag that was never registered, a flag missing its argument, a value the
flag's parser rejects, or the built-in help request. -/
inductive ParseError where
  | badSyntax (arg : String)
  | unknownFlag (name : String)
  | missingValue (name : String)
  | invalidValue (name value : String)
  | helpRequested
deriving DecidableEq

/-- Numeric value of a run of decimal digit characters. -/
def natFromDigits (ds : List Char) : Nat :=
  ds.foldl (fun acc c => acc * 10 + (c.toNat - 48)) 0

/-- A non-empty all-digit run parsed to its value, `none` otherwise. -/
def digitsToNat (ds : List Char) : Option Nat :=
  if ds ≠ [] ∧ ds.all Char.isDigit then some (natFromDigits ds) else none

def int64Max : Int := 9223372036854775807

def int64Min : Int := -9223372036854775808

/-- Modelled from the spec: the registry's signed-integer text parsing
(`strconv.ParseInt` with 64-bit size, used for `int`, `int64` flags),
restricted to plain decimal forms with an optional sign; values outside the
64-bit range are rejected. -/
def parseIntText (s : String) : Option Int :=
  let signed : Option Int :=
    match s.data with
    | '+' :: rest => (digitsToNat rest).map (fun n => (n : Int))
    | '-' :: rest => (digitsToNat rest).map (fun n => -(n : Int))
    | rest => (digitsToNat rest).map (fun n => (n : Int))
  match signed with
  | none => none
  | some v => if int64Min ≤ v ∧ v ≤ int64Max then some v else none

def uint64Max : Nat := 18446744073709551615

/-- Modelled from the spec: the registry's unsigned-integer text parsing
(`strconv.ParseUint` with 64-bit size, used for `uint`, `uint64` flags),
restricted to plain decimal forms. -/
def parseUintText (s : String) : Option Nat :=
  match digitsToNat s.data with
  | none => none
  | some n => if n ≤ uint64Max then some n else none

/-- Modelled from the spec: the registry's floating-point text parsing
(`strconv.ParseFloat`, used for `float64` flags), restricted to plain
decimal forms `[+-]digits[.digits]` and represented exactly as rationals. -/
def parseFloatText (s : String) : Option Rat :=
  let core : List Char → Option Rat := fun cs =>
    match splitAtFirst '.' cs with
    | (intPart, none) => (digitsToNat intPart).map (fun n => (n : Rat))
    | (intPart, some fracPart) =>
      match digitsToNat intPart, digitsToNat fracPart with
      | some a, some b => some ((a : Rat) + (b : Rat) / ((10 : Rat) ^ fracPart.length))
      | _, _ => none
  match s.data with
  | '+' :: rest => core rest
  | '-' :: rest => (core rest).map (fun q => -q)
  | rest => core rest

/-- Modelled from the spec: the registry's boolean text parsing
(`strconv.ParseBool`), accepting exactly the Go forms. -/
def parseBoolText (s : String) : Option Bool :=
  if s = "1" ∨ s = "t" ∨ s = "T" ∨ s = "true" ∨ s = "TRUE" ∨ s = "True" then some true
  else if s = "0" ∨ s = "f" ∨ s = "F" ∨ s = "false" ∨ s = "FALSE" ∨ s = "False" then
    some false
  else none

/-- Nanosecond multiplier of a duration unit read at the head of the input:
`ns`, `us`, `µs`, `ms`, `s`, `m`, `h`. -/
def durUnit : List Char → Option (Int × List Char)
  | 'n' :: 's' :: r => some (1, r)
  | 'u' :: 's' :: r => some (1000, r)
  | 'µ' :: 's' :: r => some (1000, r)
  | 'm' :: 's' :: r => some (1000000, r)
  | 'm' :: r => some (60000000000, r)
  | 's' :: r => some (1000000000, r)
  | 'h' :: r => some (3600000000000, r)
  | _ => none

/-- Longest digit run at the head of the input, and the remainder. -/
def takeDigits : List Char → List Char × List Char
  | [] => ([], [])
  | c :: cs =>
    if c.isDigit then
      match takeDigits cs with
      | (ds, rest) => (c :: ds, rest)
    else ([], c :: cs)

/-- Modelled from the spec: the segment loop of the registry's duration text
parsing (`time.ParseDuration`), summing `digits[.digits]unit` segments in
nanoseconds, fractional parts truncated. The fuel argument only bounds the
recursion; input length plus one is always enough because every segment
consumes at least one character. -/
def durSegs : Nat → List Char → Option Int
  | _, [] => some 0
  | 0, _ => none
  | fuel + 1, cs =>
    match takeDigits cs with
    | (ds, rest1) =>
      if ds = [] then none
      else
        let fracAndRest : List Char × List Char :=
          match rest1 with
          | '.' :: r => takeDigits r
          | _ => ([], rest1)
        match durUnit fracAndRest.2 with
        | none => none
        | some (unit, rest3) =>
          let whole : Int := (natFromDigits ds : Int) * unit
          let frac : Int :=
            if fracAndRest.1 = [] then 0
            else
              ((natFromDigits fracAndRest.1 : Int) * unit) / ((10 : Int) ^ fracAndRest.1.length)
          (durSegs fuel rest3).map (fun acc => whole + frac + acc)

/-- Modelled from the spec: the registry's duration text parsing
(`time.ParseDuration`): optional sign, the special bare `0`, otherwise one
or more `digits[.digits]unit` segments with textual forms like `15m`,
yielding a signed nanosecond count. -/
def parseDurationText (s : String) : Option Int :=
  let signAndBody : Bool × List Char :=
    match s.data with
    | '-' :: r => (true, r)
    | '+' :: r => (false, r)
    | r => (false, r)
  match signAndBody.2 with
  | [] => none
  | body =>
    if body = ['0'] then some 0
    else (durSegs (body.length + 1) body).map (fun v => if signAndBody.1 then -v else v)

/-- Modelled from the spec: the `Set` behaviour of the value installed by
each registration kind — parse the text by the flag's type and produce the
value written through the field's address. For a generic `Var` registration
the `flag.Value` implementation's own `Set` lies outside both the repository
and the registry; the model records the text it was given. -/
def setFlagValue : FlagKind → String → Option GoValue
  | .kint, text => (parseIntText text).map GoValue.vint
  | .kint64, text => (parseIntText text).map GoValue.vint64
  | .kuint, text => (parseUintText text).map GoValue.vuint
  | .kuint64, text => (parseUintText text).map GoValue.vuint64
  | .kfloat64, text => (parseFloatText text).map GoValue.vfloat64
  | .kbool, text => (parseBoolText text).map GoValue.vbool
  | .kstring, text => some (GoValue.vstring text)
  | .kduration, text => (parseDurationText text).map GoValue.vduration
  | .kvar, text => some (GoValue.vcustom text)

/-- Write `v` into field number `i`: the model of a registration's live
binding writing through the field's address during parsing. -/
def updateField : List GoField → Nat → GoValue → List GoField
  | [], _, _ => []
  | f :: rest, 0, v => { f with value := v } :: rest
  | f :: rest, i + 1, v => f :: updateField rest i v

/-- Modelled from the spec: the registry's argument parsing
(`flag.FlagSet.Parse` / `parseOne`) over the registrations `flags`, updating
the bound fields of `fields` in place. Standard flag syntax: `-name value`,
`-name=value`, bare `-name` for booleans; one or two leading minuses; a
bare `-`, a `--` terminator, or a non-flag argument stops parsing
successfully; an unregistered name fails (or requests help for `help`/`h`). -/
def parseArgs (flags : List FlagSpec) (fields : List GoField) :
    List String → Except ParseError (List GoField)
  | [] => .ok fields
  | s :: rest =>
    match s.data with
    | '-' :: r1 =>
      if r1 = [] then .ok fields
      else if r1 = ['-'] then .ok fields
      else
        let nameChars : List Char :=
          match r1 with
          | '-' :: r2 => r2
          | _ => r1
        match nameChars with
        | [] => .error (.badSyntax s)
        | c0 :: _ =>
          if c0 = '-' ∨ c0 = '=' then .error (.badSyntax s)
          else
            match splitAtFirst '=' nameChars with
            | (nm, valOpt) =>
              let nameStr : String := ⟨nm⟩
              match flags.find? (fun sp => sp.name == nameStr) with
              | none =>
                if nameStr = "help" ∨ nameStr = "h" then .error .helpRequested
                else .error (.unknownFlag nameStr)
              | some sp =>
                match sp.kind, valOpt with
                | .kbool, some v =>
                  match parseBoolText ⟨v⟩ with
                  | some b =>
                    parseArgs flags (updateField fields sp.fieldIndex (.vbool b)) rest
                  | none => .error (.invalidValue nameStr ⟨v⟩)
                | .kbool, none =>
                  parseArgs flags (updateField fields sp.fieldIndex (.vbool true)) rest
                | k, some v =>
                  match setFlagValue k ⟨v⟩ with
                  | some gv => parseArgs flags (updateField fields sp.fieldIndex gv) rest
                  | none => .error (.invalidValue nameStr ⟨v⟩)
                | k, none =>
                  match rest with
                  | [] => .error (.missingValue nameStr)
                  | v :: rest2 =>
                    match setFlagValue k v with
                    | some gv =>
                      parseArgs flags (updateField fields sp.fieldIndex gv) rest2
                    | none => .error (.invalidValue nameStr v)
    | _ => .ok fields

/-- The `configBig` structure of the round-trip test, with every tagged field
pre-populated with a distinct default: exported fields of all eight supported
kinds, plus an unsupported-type field (`unsafe.Pointer`, tagged `nil`), a
field with an empty annotation, and an untagged field. -/
def bigFieldsInit : List GoField :=
  [⟨"String", true, .string, .vstring "foo", "string,string flag example", true, false⟩,
   ⟨"Int", true, .int, .vint 1, "int,int flag example", true, false⟩,
   ⟨"Int64", true, .int64, .vint64 2, "int64,int64 flag example", true, false⟩,
   ⟨"Uint", true, .uint, .vuint 3, "uint,uint flag example", true, false⟩,
   ⟨"Uint64", true, .uint64, .vuint64 4, "uint64", true, false⟩,
   ⟨"Float64", true, .float64, .vfloat64 (1 / 2 : Rat), "float64", true, false⟩,
   ⟨"Bool", true, .bool, .vbool false, "bool", true, false⟩,
   ⟨"Duration", true, .duration, .vduration 5, "duration", true, false⟩,
   ⟨"NonAddressable", true, .rawPointer, .vother, "nil", true, false⟩,
   ⟨"Invalid", true, .bool, .vbool false, "", true, false⟩,
   ⟨"NonExposed", true, .int, .vint 0, "", true, false⟩]

/-- The argument list of the round-trip test: every tagged field set
explicitly to a new distinct value. -/
def bigArgs : List String :=
  ["-string", "whales", "-int", "42", "-int64", "107374182400", "-uint", "7",
   "-uint64", "24", "-float64", "1.55", "-bool", "-duration", "15m"]

/-- The structure manually constructed with the new values (`15m` is
900000000000 nanoseconds, `1.55` is `31/20`); untagged, empty-tagged and
unsupported fields keep their defaults. -/
def bigFieldsExpected : List GoField :=
  [⟨"String", true, .string, .vstring "whales", "string,string flag example", true, false⟩,
   ⟨"Int", true, .int, .vint 42, "int,int flag example", true, false⟩,
   ⟨"Int64", true, .int64, .vint64 107374182400, "int64,int64 flag example", true, false⟩,
   ⟨"Uint", true, .uint, .vuint 7, "uint,uint flag example", true, false⟩,
   ⟨"Uint64", true, .uint64, .vuint64 24, "uint64", true, false⟩,
   ⟨"Float64", true, .float64, .vfloat64 (31 / 20 : Rat), "float64", true, false⟩,
   ⟨"Bool", true, .bool, .vbool true, "bool", true, false⟩,
   ⟨"Duration", true, .duration, .vduration 900000000000, "duration", true, false⟩,
   ⟨"NonAddressable", true, .rawPointer, .vother, "nil", true, false⟩,
   ⟨"Invalid", true, .bool, .vbool false, "", true, false⟩,
   ⟨"NonExposed", true, .int, .vint 0, "", true, false⟩]

/-- A one-field struct with an addressable, exported, `int`-typed, tagged
field. -/
def wit1Fields : List GoField :=
  [⟨"Age", true, .int, .vint 34, "age", true, false⟩]

/-- A one-field struct with an exported tagged field, for the amended C4
witness. -/
def wit4Fields : List GoField :=
  [⟨"Num", true, .int, .vint 2, "num", true, false⟩]

/-- A one-field struct whose exported field's address implements
`flag.Value` while its concrete type is one of the built-in kinds. -/
def wit7Fields : List GoField :=
  [⟨"Custom", true, .int, .vint 3, "custom,doc", true, true⟩]

/-- A one-field struct with zero tagged fields. -/
def wit9Fields : List GoField :=
  [⟨"Married", true, .bool, .vbool false, "", true, false⟩]

/-- A one-field struct whose exported tagged field has a distinct defined
type with a supported underlying representation. -/
def wit10Fields : List GoField :=
  [⟨"Port", true, .defined "PortNumber" .int, .vint 8080, "port,listening port", true, false⟩]

/-- A struct whose only field is tagged, addressable, of supported type
`int`, but unexported (`age int` with tag `age`). -/
def unexpAgeFields : List GoField :=
  [⟨"age", false, .int, .vint 34, "age", true, false⟩]

/-- A struct with a tagged unexported field followed by a tagged exported
field: the panic on the first aborts the second. -/
def unexpAbortFields : List GoField :=
  [⟨"age", false, .int, .vint 1, "age", true, false⟩,
   ⟨"Num", true, .int, .vint 2, "num", true, false⟩]

/-- A struct whose only field is tagged, addressable, unexported, and whose
pointer type implements `flag.Value`. -/
def unexpValueFields : List GoField :=
  [⟨"custom", false, .int, .vint 3, "custom,doc", true, true⟩]

/-- A struct whose only field is tagged, addressable, unexported, of a
distinct defined type with supported underlying representation. -/
def unexpDefinedFields : List GoField :=
  [⟨"port", false, .defined "PortNumber" .int, .vint 8080, "port", true, false⟩]

theorem processField_clean (fs : List FlagSpec) (i : Nat) (f : GoField)
    (h : panicField f = false) :
    processField fs i f = Except.ok (fs ++ fieldRegs i f) := by
  obtain ⟨fn, ex, ty, v, tg, ca, iv⟩ := f
  simp only [panicField] at h
  unfold fieldRegs processField
  cases ca <;> by_cases htag : tg = "" <;> cases ex <;> cases iv <;> cases ty <;>
    simp_all

theorem processField_panic (fs : List FlagSpec) (i : Nat) (f : GoField)
    (h : panicField f = true) :
    processField fs i f = Except.error GoPanic.interfaceOfUnexported := by
  obtain ⟨fn, ex, ty, v, tg, ca, iv⟩ := f
  simp only [panicField] at h
  unfold processField
  cases ca <;> cases ex <;> cases iv <;> simp_all

theorem defineLoop_clean (fields : List GoField) :
    ∀ (fs : List FlagSpec) (i : Nat), (∀ f ∈ fields, panicField f = false) →
      defineLoop fs i fields = (fs ++ defineRegs i fields, none) := by
  induction fields with
  | nil => intro fs i _; simp [defineLoop, defineRegs]
  | cons f rest ih =>
    intro fs i hclean
    simp only [defineLoop, processField_clean fs i f (hclean f (by simp)),
      ih (fs ++ fieldRegs i f) (i + 1) (fun g hg => hclean g (by simp [hg])),
      defineRegs, List.append_assoc]

theorem registrations_clean (fields : List GoField)
    (hclean : ∀ f ∈ fields, panicField f = false) :
    registrations fields = defineRegs 0 fields := by
  simp [registrations, DefineFlagSet, defineLoop_clean fields [] 0 hclean]

theorem outcome_clean (regs : List FlagSpec) (fields : List GoField)
    (hclean : ∀ f ∈ fields, panicField f = false) :
    (DefineFlagSet (some regs) (GoArg.ptrToStruct fields)).2 = DefineOutcome.ret none := by
  simp [DefineFlagSet, defineLoop_clean fields regs 0 hclean]

theorem splitAtFirst_of_not_mem (sep : Char) (cs : List Char) (h : sep ∉ cs) :
    splitAtFirst sep cs = (cs, none) := by
  induction cs with
  | nil => rfl
  | cons c cs ih =>
    simp only [List.mem_cons, not_or] at h
    have hc : ¬c = sep := fun hc => h.1 hc.symm
    simp [splitAtFirst, hc, ih h.2]

theorem splitAtFirst_append (sep : Char) (l r : List Char) (h : sep ∉ l) :
    splitAtFirst sep (l ++ sep :: r) = (l, some r) := by
  induction l with
  | nil => simp [splitAtFirst]
  | cons c cs ih =>
    simp only [List.mem_cons, not_or] at h
    have hc : ¬c = sep := fun hc => h.1 hc.symm
    simp [splitAtFirst, hc, ih h.2]

theorem tagName_of_tag_empty (f : GoField) (h : f.tag = "") : tagName f = "" := by
  unfold tagName
  rw [h]
  rfl

theorem tag_ne_of_tagName_ne (f : GoField) (h : tagName f ≠ "") : f.tag ≠ "" :=
  fun htag => h (tagName_of_tag_empty f htag)

theorem exported_of_clean (f : GoField) (hpf : panicField f = false)
    (hca : f.canAddr = true) (htag : f.tag ≠ "") : f.exported = true := by
  by_contra hexp
  apply htag
  rw [Bool.not_eq_true] at hexp
  simp only [panicField, hca, hexp, Bool.not_false, Bool.and_true, Bool.true_and,
    Bool.not_eq_false', beq_iff_eq] at hpf
  exact hpf

theorem fieldRegs_fieldIndex (i : Nat) (f : GoField) :
    ∀ sp ∈ fieldRegs i f, sp.fieldIndex = i := by
  obtain ⟨fn, ex, ty, v, tg, ca, iv⟩ := f
  intro sp hsp
  unfold fieldRegs processField at hsp
  cases ca <;> by_cases htag : tg = "" <;> cases ex <;> cases iv <;> cases ty <;>
    simp_all

theorem defineRegs_fieldIndex_ge (fields : List GoField) :
    ∀ (start : Nat), ∀ sp ∈ defineRegs start fields, start ≤ sp.fieldIndex := by
  induction fields with
  | nil => intro start sp hsp; simp [defineRegs] at hsp
  | cons f rest ih =>
    intro start sp hsp
    simp only [defineRegs, List.mem_append] at hsp
    rcases hsp with hsp | hsp
    · exact (fieldRegs_fieldIndex start f sp hsp).ge
    · exact le_trans (Nat.le_succ start) (ih (start + 1) sp hsp)

theorem filter_fieldRegs_self (i : Nat) (f : GoField) :
    (fieldRegs i f).filter (fun sp => sp.fieldIndex = i) = fieldRegs i f := by
  rw [List.filter_eq_self]
  intro sp hsp
  simp [fieldRegs_fieldIndex i f sp hsp]

theorem filter_fieldRegs_ne (i j : Nat) (f : GoField) (h : j ≠ i) :
    (fieldRegs i f).filter (fun sp => sp.fieldIndex = j) = [] := by
  rw [List.filter_eq_nil_iff]
  intro sp hsp
  have hidx := fieldRegs_fieldIndex i f sp hsp
  simp only [hidx, decide_eq_true_eq]
  exact fun hh => h hh.symm

theorem filter_defineRegs_lt (fields : List GoField) :
    ∀ (start j : Nat), j < start →
      (defineRegs start fields).filter (fun sp => sp.fieldIndex = j) = [] := by
  intro start j hj
  rw [List.filter_eq_nil_iff]
  intro sp hsp
  have := defineRegs_fieldIndex_ge fields start sp hsp
  simp only [decide_eq_true_eq]
  omega

theorem regsForIndex_defineRegs (fields : List GoField) :
    ∀ (start k : Nat) (h : k < fields.length),
      regsForIndex (start + k) (defineRegs start fields) =
        fieldRegs (start + k) (fields.get ⟨k, h⟩) := by
  induction fields with
  | nil => intro start k h; exact absurd h (by simp)
  | cons f rest ih =>
    intro start k h
    unfold regsForIndex
    cases k with
    | zero =>
      simp only [Nat.add_zero, defineRegs, List.filter_append, List.get]
      rw [filter_fieldRegs_self, filter_defineRegs_lt rest (start + 1) start (Nat.lt_succ_self start),
        List.append_nil]
    | succ k' =>
      simp only [defineRegs, List.filter_append, List.get_cons_succ]
      rw [filter_fieldRegs_ne start (start + (k' + 1)) f (by omega)]
      have hk' : k' < rest.length := by simpa using Nat.lt_of_succ_lt_succ h
      have := ih (start + 1) k' hk'
      unfold regsForIndex at this
      rw [List.nil_append, show start + (k' + 1) = start + 1 + k' by omega, this]

theorem regsForIndex_registrations (fields : List GoField)
    (hclean : ∀ f ∈ fields, panicField f = false) (i : Nat) (h : i < fields.length) :
    regsForIndex i (registrations fields) = fieldRegs i (fields.get ⟨i, h⟩) := by
  rw [registrations_clean fields hclean]
  have := regsForIndex_defineRegs fields 0 i h
  rwa [Nat.zero_add] at this

theorem fieldRegs_of_not_canAddr (i : Nat) (f : GoField) (h : f.canAddr = false) :
    fieldRegs i f = [] := by
  simp [fieldRegs, processField, h]

theorem fieldRegs_of_tag_empty (i : Nat) (f : GoField) (h : f.tag = "") :
    fieldRegs i f = [] := by
  cases hca : f.canAddr <;> simp [fieldRegs, processField, h, hca]

theorem fieldRegs_of_implementsValue (i : Nat) (f : GoField) (hca : f.canAddr = true)
    (htag : f.tag ≠ "") (hexp : f.exported = true) (himp : f.implementsValue = true) :
    fieldRegs i f = [⟨(splitTag f.tag).1, (splitTag f.tag).2, FlagKind.kvar, i, none⟩] := by
  simp [fieldRegs, processField, hca, htag, hexp, himp]

theorem fieldRegs_of_unsupported (i : Nat) (f : GoField)
    (himp : f.implementsValue = false) (hb : isBuiltin f.typ = false) :
    fieldRegs i f = [] := by
  obtain ⟨fn, ex, ty, v, tg, ca, iv⟩ := f
  cases ca <;> by_cases htag : tg = "" <;> cases ex <;> cases ty <;>
    simp_all [fieldRegs, processField, isBuiltin]

theorem fieldRegs_length_supported (i : Nat) (f : GoField) (hca : f.canAddr = true)
    (htag : f.tag ≠ "") (hexp : f.exported = true) (hsup : supportedField f = true) :
    (fieldRegs i f).length = 1 := by
  obtain ⟨fn, ex, ty, v, tg, ca, iv⟩ := f
  cases iv <;> cases ty <;>
    simp_all [fieldRegs, processField, supportedField, isBuiltin]

theorem fieldRegs_defValue (i : Nat) (f : GoField) :
    ∀ sp ∈ fieldRegs i f, sp.kind ≠ FlagKind.kvar → sp.defValue = some f.value := by
  obtain ⟨fn, ex, ty, v, tg, ca, iv⟩ := f
  intro sp hsp hk
  unfold fieldRegs processField at hsp
  cases ca <;> by_cases htag : tg = "" <;> cases ex <;> cases iv <;> cases ty <;>
    simp_all

/-- Claim C1 counterexample: a struct whose only field carries the non-empty
annotation name `age`, is addressable, and has the supported type `int` —
yet, being unexported, it produces zero registrations: the bind panics at
`val.Interface()` instead of creating exactly one flag binding. -/
theorem claim1_counterexample :
    (unexpAgeFields.get ⟨0, by decide⟩).canAddr = true ∧
    supportedField (unexpAgeFields.get ⟨0, by decide⟩) = true ∧
    tagName (unexpAgeFields.get ⟨0, by decide⟩) ≠ "" ∧
    regsForIndex 0 (registrations unexpAgeFields) = [] ∧
    (DefineFlagSet (some []) (GoArg.ptrToStruct unexpAgeFields)).2 =
      DefineOutcome.panicked GoPanic.interfaceOfUnexported := by
  decide

/-- Claim C1 (amended): for every struct passed by non-nil pointer that
contains no tagged unexported field, every field whose annotation has a
non-empty name produces exactly one registration against the registry,
unless the field is non-addressable or its type is unsupported, in which
case no registration is produced and no error is raised; each built-in-typed
registration seeds the registry's default value with the field's current
(pre-registration) value. (A tagged addressable unexported field instead
makes the bind panic with no registration for it.) -/
theorem claim1_amended_registration_invariant (fields : List GoField)
    (hclean : ∀ f ∈ fields, panicField f = false) (i : Nat)
    (h : i < fields.length) (hname : tagName (fields.get ⟨i, h⟩) ≠ "") :
    (DefineFlagSet (some []) (GoArg.ptrToStruct fields)).2 = DefineOutcome.ret none ∧
    ((fields.get ⟨i, h⟩).canAddr = true → supportedField (fields.get ⟨i, h⟩) = true →
      (regsForIndex i (registrations fields)).length = 1) ∧
    ((fields.get ⟨i, h⟩).canAddr = false ∨ supportedField (fields.get ⟨i, h⟩) = false →
      regsForIndex i (registrations fields) = []) ∧
    (∀ sp ∈ regsForIndex i (registrations fields),
      sp.kind ≠ FlagKind.kvar → sp.defValue = some (fields.get ⟨i, h⟩).value) := by
  have hreg := regsForIndex_registrations fields hclean i h
  have htag := tag_ne_of_tagName_ne _ hname
  refine ⟨outcome_clean [] fields hclean, ?_, ?_, ?_⟩
  · intro hca hsup
    rw [hreg]
    exact fieldRegs_length_supported i _ hca htag
      (exported_of_clean _ (hclean _ (List.get_mem fields i h)) hca htag) hsup
  · intro hor
    rw [hreg]
    rcases hor with hca | hsup
    · exact fieldRegs_of_not_canAddr i _ hca
    · rw [supportedField, Bool.or_eq_false_iff] at hsup
      exact fieldRegs_of_unsupported i _ hsup.1 hsup.2
  · intro sp hsp
    rw [hreg] at hsp
    exact fieldRegs_defValue i _ sp hsp

theorem claim1_witness :
    (regsForIndex 0 (registrations wit1Fields)).length = 1 :=
  (claim1_amended_registration_invariant wit1Fields (by decide) 0 (by decide)
    (by decide)).2.1 (by decide) (by decide)

/-- Claim C2: for a structure with fields of every supported kind, each
pre-populated with a distinct default, binding followed by the registry
parsing an argument list that explicitly sets every field to a new distinct
value yields a structure equal to one manually constructed with those new
values. -/
theorem claim2_round_trip_all_kinds :
    (DefineFlagSet (some []) (GoArg.ptrToStruct bigFieldsInit)).2 =
      DefineOutcome.ret none ∧
    parseArgs (registrations bigFieldsInit) bigFieldsInit bigArgs =
      Except.ok bigFieldsExpected :=
  ⟨by with_unfolding_all rfl, by with_unfolding_all rfl⟩

/-- Claim C3 counterexample: calling the explicit-registry entry point with
an absent registry and a non-pointer config argument does not fail with
`PointerExpected`; it fails with `InvalidRegistry`, because the registry
check comes first in the source, not fourth. -/
theorem claim3_counterexample :
    (DefineFlagSet none GoArg.nonPointer).2 ≠
      DefineOutcome.ret (some DefineError.pointerWanted) ∧
    (DefineFlagSet none GoArg.nonPointer).2 =
      DefineOutcome.ret (some DefineError.invalidFlagSet) :=
  ⟨by decide, rfl⟩

/-- Claim C3 (amended): input validation is checked in the order (1) absent
explicit registry, (2) non-pointer argument, (3) invalid dereference or
non-struct target, with the first failure winning; in particular an absent
registry together with a non-pointer config fails with `InvalidRegistry`. -/
theorem claim3_amended_validation_order :
    (∀ config, (DefineFlagSet none config).2 =
      DefineOutcome.ret (some DefineError.invalidFlagSet)) ∧
    (∀ regs, (DefineFlagSet (some regs) GoArg.nonPointer).2 =
      DefineOutcome.ret (some DefineError.pointerWanted)) ∧
    (∀ regs, (DefineFlagSet (some regs) GoArg.nilPointer).2 =
      DefineOutcome.ret (some DefineError.invalidArgument)) ∧
    (∀ regs, (DefineFlagSet (some regs) GoArg.ptrToNonStruct).2 =
      DefineOutcome.ret (some DefineError.invalidArgument)) :=
  ⟨fun _ => rfl, fun _ => rfl, fun _ => rfl, fun _ => rfl⟩

/-- Claim C4 counterexample: a struct with a tagged unexported field followed
by a tagged exported field. The bind does not return success — it panics at
`val.Interface()` — and the subsequent exported field is never processed:
the registry ends up with zero registrations. -/
theorem claim4_counterexample :
    (DefineFlagSet (some []) (GoArg.ptrToStruct unexpAbortFields)).2 =
      DefineOutcome.panicked GoPanic.interfaceOfUnexported ∧
    (DefineFlagSet (some []) (GoArg.ptrToStruct unexpAbortFields)).2 ≠
      DefineOutcome.ret none ∧
    (DefineFlagSet (some []) (GoArg.ptrToStruct unexpAbortFields)).1 = some [] := by
  decide

/-- Claim C4 (amended): for every input that passes the entry validations
and whose struct contains no tagged unexported field, the bind operation
terminates normally returning success: untagged, empty-tag, non-addressable
and unsupported-type fields never produce an error, never panic, and never
abort processing of subsequent fields — the final registry state contains
the registrations of the whole field list; the only non-success returns are
the input-validation errors. (A tagged unexported addressable field instead
raises a reflection panic that aborts processing of the remaining fields.) -/
theorem claim4_amended_total_success (regs : List FlagSpec) (fields : List GoField)
    (hclean : ∀ f ∈ fields, panicField f = false) :
    (DefineFlagSet (some regs) (GoArg.ptrToStruct fields)).2 = DefineOutcome.ret none ∧
    (DefineFlagSet (some regs) (GoArg.ptrToStruct fields)).1 =
      some (regs ++ defineRegs 0 fields) :=
  ⟨outcome_clean regs fields hclean,
    by simp [DefineFlagSet, defineLoop_clean fields regs 0 hclean]⟩

theorem claim4_witness :
    (DefineFlagSet (some []) (GoArg.ptrToStruct wit4Fields)).2 =
      DefineOutcome.ret none :=
  (claim4_amended_total_success [] wit4Fields (by decide)).1

/-- Claim C5: `Define` fails with `PointerExpected` for all non-pointer
inputs, with `InvalidArgument` for nil-pointer or pointer-to-non-struct
inputs; `DefineFlagSet` fails with `InvalidRegistry` exactly when the
registry is absent; no other error values exist. -/
theorem claim5_error_taxonomy :
    (∀ cl, (Define cl GoArg.nonPointer).2 =
      DefineOutcome.ret (some DefineError.pointerWanted)) ∧
    (∀ cl, (Define cl GoArg.nilPointer).2 =
      DefineOutcome.ret (some DefineError.invalidArgument)) ∧
    (∀ cl, (Define cl GoArg.ptrToNonStruct).2 =
      DefineOutcome.ret (some DefineError.invalidArgument)) ∧
    (∀ fs config,
      ((DefineFlagSet fs config).2 =
        DefineOutcome.ret (some DefineError.invalidFlagSet) ↔ fs = none)) ∧
    (∀ fs config e, (DefineFlagSet fs config).2 = DefineOutcome.ret (some e) →
      e = DefineError.invalidFlagSet ∨ e = DefineError.pointerWanted ∨
        e = DefineError.invalidArgument) := by
  refine ⟨fun cl => rfl, fun cl => rfl, fun cl => rfl, ?_, ?_⟩
  · intro fs config
    cases fs with
    | none => simp [DefineFlagSet]
    | some regs =>
      cases config with
      | ptrToStruct fields =>
        rcases hdl : defineLoop regs 0 fields with ⟨regs2, p⟩
        cases p <;> simp [DefineFlagSet, hdl]
      | nonPointer => simp [DefineFlagSet]
      | nilPointer => simp [DefineFlagSet]
      | ptrToNonStruct => simp [DefineFlagSet]
  · intro fs config e hmatch
    cases e <;> tauto

theorem claim5_witness :
    DefineError.pointerWanted = DefineError.invalidFlagSet ∨
      DefineError.pointerWanted = DefineError.pointerWanted ∨
        DefineError.pointerWanted = DefineError.invalidArgument :=
  claim5_error_taxonomy.2.2.2.2 (some []) GoArg.nonPointer DefineError.pointerWanted rfl

/-- Claim C6: whenever the bind operation returns a validation error, no
registration has been made — the registry state is exactly the state passed
in. -/
theorem claim6_no_partial_registration (fs : Option (List FlagSpec)) (config : GoArg)
    (e : DefineError)
    (h : (DefineFlagSet fs config).2 = DefineOutcome.ret (some e)) :
    (DefineFlagSet fs config).1 = fs := by
  cases fs with
  | none => rfl
  | some regs =>
    cases config with
    | ptrToStruct fields =>
      rcases hdl : defineLoop regs 0 fields with ⟨regs2, p⟩
      cases p <;> simp [DefineFlagSet, hdl] at h
    | nonPointer => rfl
    | nilPointer => rfl
    | ptrToNonStruct => rfl

theorem claim6_witness : (DefineFlagSet (some []) GoArg.nonPointer).1 = some [] :=
  claim6_no_partial_registration (some []) GoArg.nonPointer DefineError.pointerWanted rfl

/-- Claim C7 counterexample: a struct whose only field is tagged,
addressable, and whose address implements `flag.Value` — yet, being
unexported, it is not registered as a generic value-flag: `addr.Interface()`
panics at line 93 before `fs.Var` runs, and the registry stays empty. -/
theorem claim7_counterexample :
    (unexpValueFields.get ⟨0, by decide⟩).canAddr = true ∧
    (unexpValueFields.get ⟨0, by decide⟩).implementsValue = true ∧
    (unexpValueFields.get ⟨0, by decide⟩).tag ≠ "" ∧
    regsForIndex 0 (registrations unexpValueFields) = [] ∧
    (DefineFlagSet (some []) (GoArg.ptrToStruct unexpValueFields)).2 =
      DefineOutcome.panicked GoPanic.interfaceOfUnexported := by
  decide

/-- Claim C7 (amended): in a struct with no tagged unexported field, every
tagged addressable field whose address implements `flag.Value` is registered
as a generic value-flag with the parsed name and usage, and this takes
priority over built-in dispatch — the single registration is a `Var`
registration whatever the field's concrete type. (A tagged unexported such
field instead panics at `addr.Interface()` before registration.) -/
theorem claim7_amended_value_priority (fields : List GoField)
    (hclean : ∀ f ∈ fields, panicField f = false) (i : Nat) (h : i < fields.length)
    (hca : (fields.get ⟨i, h⟩).canAddr = true) (htag : (fields.get ⟨i, h⟩).tag ≠ "")
    (himp : (fields.get ⟨i, h⟩).implementsValue = true) :
    regsForIndex i (registrations fields) =
      [⟨(splitTag (fields.get ⟨i, h⟩).tag).1, (splitTag (fields.get ⟨i, h⟩).tag).2,
        FlagKind.kvar, i, none⟩] := by
  rw [regsForIndex_registrations fields hclean i h]
  exact fieldRegs_of_implementsValue i _ hca htag
    (exported_of_clean _ (hclean _ (List.get_mem fields i h)) hca htag) himp

theorem claim7_witness :
    regsForIndex 0 (registrations wit7Fields) =
      [⟨"custom", "doc", FlagKind.kvar, 0, none⟩] :=
  (claim7_amended_value_priority wit7Fields (by decide) 0 (by decide) (by decide)
    (by decide) (by decide)).trans (by decide)

/-- Claim C8: the annotation splits on the first comma only — no comma means
the whole annotation is the name and the usage is empty; with a comma,
everything before it is the name and everything after it (further commas
included) is the usage; an empty name is passed through to the registry
as-is. -/
theorem claim8_annotation_split :
    (∀ tag : String, ',' ∉ tag.data → splitTag tag = (tag, "")) ∧
    (∀ a b : String, ',' ∉ a.data → splitTag (a ++ "," ++ b) = (a, b)) ∧
    (∀ (fname : String) (v : GoValue) (i : Nat) (usage : String) (fs : List FlagSpec),
      processField fs i
          ⟨fname, true, GoType.int, v, String.mk (',' :: usage.data), true, false⟩ =
        Except.ok (fs ++ [⟨"", usage, FlagKind.kint, i, some v⟩])) := by
  refine ⟨?_, ?_, ?_⟩
  · intro tag hmem
    unfold splitTag
    rw [splitAtFirst_of_not_mem ',' tag.data hmem]
  · intro a b hmem
    unfold splitTag
    have hdata : (a ++ "," ++ b).data = a.data ++ ',' :: b.data := by
      show (a.data ++ [',']) ++ b.data = a.data ++ ',' :: b.data
      simp
    rw [hdata, splitAtFirst_append ',' a.data b.data hmem]
  · intro fname v i usage fs
    rfl

theorem claim8_witness :
    splitTag "flagname" = ("flagname", "") ∧
    splitTag ("name" ++ "," ++ "usage, more text") = ("name", "usage, more text") :=
  ⟨claim8_annotation_split.1 "flagname" (by decide),
    claim8_annotation_split.2.1 "name" "usage, more text" (by decide)⟩

/-- Claim C9: the bind operation never writes to the configuration
structure; binding a structure with zero tagged fields registers nothing,
and a subsequent parse of zero arguments returns the structure exactly as it
was before the call. -/
theorem claim9_noop_round_trip (fields : List GoField)
    (h : ∀ f ∈ fields, f.tag = "") :
    (DefineFlagSet (some []) (GoArg.ptrToStruct fields)).2 = DefineOutcome.ret none ∧
    registrations fields = [] ∧
    parseArgs (registrations fields) fields [] = Except.ok fields := by
  have hclean : ∀ f ∈ fields, panicField f = false := by
    intro f hf
    simp [panicField, h f hf]
  have hall : ∀ (fl : List GoField), (∀ f ∈ fl, f.tag = "") →
      ∀ start, defineRegs start fl = [] := by
    intro fl
    induction fl with
    | nil => intro _ start; rfl
    | cons f rest ih =>
      intro hh start
      rw [defineRegs, fieldRegs_of_tag_empty start f (hh f (by simp)),
        ih (fun g hg => hh g (by simp [hg])) (start + 1)]
      rfl
  have hreg : registrations fields = [] := by
    rw [registrations_clean fields hclean]
    exact hall fields h 0
  exact ⟨outcome_clean [] fields hclean, hreg, by rw [hreg]; rfl⟩

theorem claim9_witness :
    parseArgs (registrations wit9Fields) wit9Fields [] = Except.ok wit9Fields :=
  (claim9_noop_round_trip wit9Fields (by decide)).2.2

/-- Claim C10 counterexample: a struct whose only field is tagged,
addressable, of a distinct defined type (`PortNumber`, underlying `int`),
without `flag.Value` — yet, being unexported, it is not silently skipped:
`val.Interface()` panics at line 96, so the bind neither returns success nor
leaves the field quietly unregistered. -/
theorem claim10_counterexample :
    (DefineFlagSet (some []) (GoArg.ptrToStruct unexpDefinedFields)).2 =
      DefineOutcome.panicked GoPanic.interfaceOfUnexported ∧
    (DefineFlagSet (some []) (GoArg.ptrToStruct unexpDefinedFields)).2 ≠
      DefineOutcome.ret none ∧
    registrations unexpDefinedFields = [] := by
  decide

/-- Claim C10 (amended): built-in dispatch matches the exact dynamic type,
not the underlying kind — in a struct with no tagged unexported field, a
tagged addressable field of a distinct defined type (whatever its underlying
representation) whose address does not implement `flag.Value` is silently
skipped with no registration and no error. (An unexported such field instead
panics at `val.Interface()`.) -/
theorem claim10_amended_defined_type_skipped (fields : List GoField)
    (hclean : ∀ f ∈ fields, panicField f = false) (i : Nat)
    (h : i < fields.length) (nm : String) (u : GoType)
    (_hca : (fields.get ⟨i, h⟩).canAddr = true) (_htag : (fields.get ⟨i, h⟩).tag ≠ "")
    (htyp : (fields.get ⟨i, h⟩).typ = GoType.defined nm u)
    (himp : (fields.get ⟨i, h⟩).implementsValue = false) :
    (DefineFlagSet (some []) (GoArg.ptrToStruct fields)).2 = DefineOutcome.ret none ∧
    regsForIndex i (registrations fields) = [] := by
  refine ⟨outcome_clean [] fields hclean, ?_⟩
  rw [regsForIndex_registrations fields hclean i h]
  exact fieldRegs_of_unsupported i _ himp (by rw [htyp]; rfl)

theorem claim10_witness :
    regsForIndex 0 (registrations wit10Fields) = [] :=
  (claim10_amended_defined_type_skipped wit10Fields (by decide) 0 (by decide)
    "PortNumber" GoType.int (by decide) (by decide) (by decide) (by decide)).2

end Autoflags
